import Mathlib

/-!
Verification development for the EMRG AIM interaction core.

The C++ sources embedded here are:
* `src/interactions/aim_interaction.cpp` — the `AIM::Grid` implementation
  (constructor, `calculate_bounds`, `grid_coordinate`, `coord_to_idx`,
  `idx_to_coord`, `spatial_coord_of_box`, `expansion_box_indices`) and the
  `AIM::AimInteraction` implementation (`evaluate`, `fill_fourier_table`,
  `fill_gmatrix_table`);
* `src/interactions/AIM/grid.h` — an inline variant of the same `Grid`
  geometry routines that uses a different index convention and truncating
  (instead of flooring) coordinate conversion, plus `associated_grid_index`
  and `max_transit_steps`;
* `test/AIM/aim_test.cpp` — the Gaussian point-propagation scenario.

Arithmetic on C++ `double`s is modelled exactly: ℚ wherever the code is
algebraic, ℝ where square roots (`Eigen::...norm()`) appear.  Machine
integer overflow does not occur on any value reasoned about below, so
`int` is modelled as ℤ and `size_t` as ℕ (conversions noted per
definition).
-/

namespace EMRG

/-- Componentwise 3-vector.  `V3 ℚ` models `Eigen::Vector3d`/`Array3d`,
`V3 ℤ` models `Eigen::Vector3i`/`Array3i`. -/
structure V3 (α : Type) where
  x : α
  y : α
  z : α
deriving DecidableEq

instance [Add α] : Add (V3 α) := ⟨fun a b => ⟨a.x + b.x, a.y + b.y, a.z + b.z⟩⟩

instance [Sub α] : Sub (V3 α) := ⟨fun a b => ⟨a.x - b.x, a.y - b.y, a.z - b.z⟩⟩

instance [Mul α] : Mul (V3 α) := ⟨fun a b => ⟨a.x * b.x, a.y * b.y, a.z * b.z⟩⟩

/-- Componentwise minimum of integer 3-vectors (`Eigen::Array::min`). -/
def vmin (a b : V3 ℤ) : V3 ℤ := ⟨min a.x b.x, min a.y b.y, min a.z b.z⟩

/-- Componentwise maximum of integer 3-vectors (`Eigen::Array::max`). -/
def vmax (a b : V3 ℤ) : V3 ℤ := ⟨max a.x b.x, max a.y b.y, max a.z b.z⟩

/-- Add the same scalar to every component. -/
def vadds (v : V3 ℤ) (s : ℤ) : V3 ℤ := ⟨v.x + s, v.y + s, v.z + s⟩

/-- Componentwise `≤` on integer 3-vectors. -/
def vle (a b : V3 ℤ) : Prop := a.x ≤ b.x ∧ a.y ≤ b.y ∧ a.z ≤ b.z

/-- Componentwise `<` on integer 3-vectors. -/
def vlt (a b : V3 ℤ) : Prop := a.x < b.x ∧ a.y < b.y ∧ a.z < b.z

instance (a b : V3 ℤ) : Decidable (vle a b) := inferInstanceAs (Decidable (_ ∧ _ ∧ _))

instance (a b : V3 ℤ) : Decidable (vlt a b) := inferInstanceAs (Decidable (_ ∧ _ ∧ _))

/-- Cast an integer 3-vector to a rational one (`Eigen::...cast<double>()`). -/
def castQ (v : V3 ℤ) : V3 ℚ := ⟨(v.x : ℚ), (v.y : ℚ), (v.z : ℚ)⟩

/-- Truncation toward zero of a rational, modelling the C++ `double → int`
conversion (`static_cast` / `Eigen::...cast<int>()`). -/
def ratTrunc (q : ℚ) : ℤ := if 0 ≤ q then ⌊q⌋ else -⌊-q⌋

/-! ## The `AIM::Grid` implementation of `aim_interaction.cpp` -/

/-- `AIM::Grid::grid_coordinate` (aim_interaction.cpp:42-45):
`floor(coord.cwiseQuotient(spacing.matrix()).array()).cast<int>()` —
componentwise floor of the quotient. -/
def grid_coordinate (spacing : V3 ℚ) (pos : V3 ℚ) : V3 ℤ :=
  ⟨⌊pos.x / spacing.x⌋, ⌊pos.y / spacing.y⌋, ⌊pos.z / spacing.z⌋⟩

/-- `AIM::Grid::calculate_bounds` (aim_interaction.cpp:23-40): `b.setZero()`,
then for each dot `b.col(0) := min(grid_coord, b.col(0))`,
`b.col(1) := max(grid_coord, b.col(1))`; finally `b.col(0) -= padding`,
`b.col(1) += padding + 1`.  Note the zero initialisation: the fold over the
dots starts from the zero vector, not from the first dot. -/
def calculate_bounds (spacing : V3 ℚ) (dots : List (V3 ℚ)) (padding : ℤ) :
    V3 ℤ × V3 ℤ :=
  let f := dots.foldl
    (fun (b : V3 ℤ × V3 ℤ) pos =>
      (vmin (grid_coordinate spacing pos) b.1, vmax (grid_coordinate spacing pos) b.2))
    (⟨0, 0, 0⟩, ⟨0, 0, 0⟩)
  (vadds f.1 (-padding), vadds f.2 (padding + 1))

/-- State of an `AIM::Grid` after the constructor body
(aim_interaction.cpp:3-15) has run: `bounds = calculate_bounds()`,
`dimensions = bounds.col(1) - bounds.col(0)`, `num_boxes = dimensions.prod()`.
The dot reordering side effect (`sort_points_on_boxidx`) does not change any
field and is not modelled. -/
structure GridData where
  spacing : V3 ℚ
  padding : ℤ
  bounds : V3 ℤ × V3 ℤ
  dimensions : V3 ℤ
  num_boxes : ℤ
deriving DecidableEq

/-- `AIM::Grid::Grid(spacing, dots, pad)` (aim_interaction.cpp:3-15). -/
def mkGrid (spacing : V3 ℚ) (dots : List (V3 ℚ)) (padding : ℤ) : GridData :=
  let b := calculate_bounds spacing dots padding
  let dims := b.2 - b.1
  { spacing := spacing
    padding := padding
    bounds := b
    dimensions := dims
    num_boxes := dims.x * dims.y * dims.z }

/-- `AIM::Grid::coord_to_idx` (aim_interaction.cpp:47-52):
`shifted = coord - bounds.col(0)`;
`return shifted(0) + dimensions(0) * (shifted(1) + dimensions(1) * shifted(2))`.
The C++ expression is computed in `int` and converted to `size_t` on return;
the model keeps the signed value (on every input reasoned about below the
value is nonnegative, so the conversion is the identity). -/
def coord_to_idx (g : GridData) (c : V3 ℤ) : ℤ :=
  (c.x - g.bounds.1.x) +
    g.dimensions.x * ((c.y - g.bounds.1.y) + g.dimensions.y * (c.z - g.bounds.1.z))

/-- `AIM::Grid::idx_to_coord` (aim_interaction.cpp:54-63):
`nxny = dims(0)*dims(1)`; `z = idx / nxny`; `idx -= z*nxny`;
`y = idx / dims(0)`; `x = idx % dims(0)`.  `idx` is a `size_t`, so the
divisions are on nonnegative numbers: ℕ division models them; the dimension
factors are `int`s, nonnegative for every constructed grid (`.toNat`). -/
def idx_to_coord (g : GridData) (idx : ℕ) : V3 ℤ :=
  let nxny := (g.dimensions.x * g.dimensions.y).toNat
  let zq := idx / nxny
  let idx2 := idx - zq * nxny
  let yq := idx2 / g.dimensions.x.toNat
  let xq := idx2 % g.dimensions.x.toNat
  ⟨(xq : ℤ), (yq : ℤ), (zq : ℤ)⟩

/-- `AIM::Grid::spatial_coord_of_box` (aim_interaction.cpp:65-70):
`r = idx_to_coord(box_id).cast<double>() * spacing; return r + bounds.col(0)`.
Note that `bounds.col(0)` is added *unscaled* (not multiplied by the
spacing), exactly as in the source. -/
def spatial_coord_of_box (g : GridData) (box_id : ℕ) : V3 ℚ :=
  castQ (idx_to_coord g box_id) * g.spacing + castQ g.bounds.1

/-- Modelled from the spec: `grid_sequence` lives in `math_utils`, which is
not part of the sources.  Per §4.1 it enumerates stencil offsets
"centered near the box containing pos": `0, 1, -1, 2, -2, …`. -/
def grid_sequence (n : ℕ) : ℤ :=
  if n % 2 = 0 then -((n / 2 : ℕ) : ℤ) else (((n + 1) / 2 : ℕ) : ℤ)

/-- `AIM::Grid::expansion_box_indices` (aim_interaction.cpp:72-92): the
triple loop `nx, ny, nz ∈ [0, order]` (lexicographic, `nz` fastest) collects
`coord_to_idx(grid_coordinate(pos) + (grid_sequence nx, grid_sequence ny,
grid_sequence nz))` into a vector of `(order+1)^3` entries.  There is no
bounds check of any kind in the source. -/
def expansion_box_indices (g : GridData) (pos : V3 ℚ) (order : ℕ) : List ℤ :=
  let origin := grid_coordinate g.spacing pos
  (List.range (order + 1)).flatMap fun nx =>
    (List.range (order + 1)).flatMap fun ny =>
      (List.range (order + 1)).map fun nz =>
        coord_to_idx g (origin + ⟨grid_sequence nx, grid_sequence ny, grid_sequence nz⟩)

/-- `max_diagonal` as set by the `Grid` constructor (aim_interaction.cpp:10):
`(dimensions.cast<double>() * spacing).matrix().norm()` — the Euclidean norm
of the componentwise product. -/
noncomputable def max_diagonal (g : GridData) : ℝ :=
  Real.sqrt
    ((((g.dimensions.x : ℚ) * g.spacing.x)^2 +
      ((g.dimensions.y : ℚ) * g.spacing.y)^2 +
      ((g.dimensions.z : ℚ) * g.spacing.z)^2 : ℚ) : ℝ)

/-- `AIM::Grid::max_transit_steps` (grid.h:69-72):
`static_cast<int>(ceil(max_diagonal / (c * dt)))`. -/
noncomputable def max_transit_steps (g : GridData) (c dt : ℚ) : ℤ :=
  ⌈max_diagonal g / ((c : ℝ) * (dt : ℝ))⌉

/-! ## The inline `AIM::Grid` variant of `grid.h` -/

/-- `AIM::Grid::grid_coordinate` inline variant (grid.h:31-34):
`(coord.array() / spacing).cast<int>()` — componentwise *truncation toward
zero* of the quotient, not a floor. -/
def grid_coordinate_h (spacing : V3 ℚ) (pos : V3 ℚ) : V3 ℤ :=
  ⟨ratTrunc (pos.x / spacing.x), ratTrunc (pos.y / spacing.y), ratTrunc (pos.z / spacing.z)⟩

/-- `AIM::Grid::coord_to_idx` inline variant (grid.h:42-45):
`coord(2) + dimensions(2) * (coord(1) + dimensions(1) * coord(0))` — no
bounds shift, `z` fastest. -/
def coord_to_idx_h (dims : V3 ℤ) (c : V3 ℤ) : ℤ :=
  c.z + dims.z * (c.y + dims.y * c.x)

/-- `AIM::Grid::idx_to_coord` inline variant (grid.h:47-56):
`nynz = dims(1)*dims(2)`; `x = idx / nynz`; `idx -= x*nynz`;
`y = idx / dims(2)`; `z = idx % dims(2)` (`size_t` divisions — ℕ). -/
def idx_to_coord_h (dims : V3 ℤ) (idx : ℕ) : V3 ℤ :=
  let nynz := (dims.y * dims.z).toNat
  let xq := idx / nynz
  let idx2 := idx - xq * nynz
  let yq := idx2 / dims.z.toNat
  let zq := idx2 % dims.z.toNat
  ⟨(xq : ℤ), (yq : ℤ), (zq : ℤ)⟩

/-- `AIM::Grid::spatial_coord_of_box` inline variant (grid.h:58-62):
`dr = idx_to_coord(box_id) + bounds.col(0); return dr.cast<double>() * spacing`
(here the bounds offset *is* applied before scaling). -/
def spatial_coord_of_box_h (spacing : V3 ℚ) (bmin dims : V3 ℤ) (idx : ℕ) : V3 ℚ :=
  castQ (idx_to_coord_h dims idx + bmin) * spacing

/-- `AIM::Grid::associated_grid_index` (grid.h:36-40):
`coord_to_idx(grid_coordinate(coord) - bounds.col(0))`. -/
def associated_grid_index (spacing : V3 ℚ) (bmin dims : V3 ℤ) (pos : V3 ℚ) : ℤ :=
  coord_to_idx_h dims (grid_coordinate_h spacing pos - bmin)

/-! ## The `AIM::AimInteraction` implementation of `aim_interaction.cpp` -/

/-- `AIM::AimInteraction::evaluate` (aim_interaction.cpp:134-138).  The whole
body is `results = 0; return results;`: every entry of the result array is
set to zero and returned, for every step.  Entry `i` is the (complex) result
for dot `i`. -/
def aim_evaluate (step : ℤ) : ℕ → ℂ := fun _ => 0

/-- Modelled from the spec: `gaussian` lives in `math_utils`, which is not
among the sources.  The spec §8 "Gaussian pulse of known analytic form" is
the standard `exp(-t²/2)` (every property proved below uses only its strict
positivity, which any Gaussian has). -/
noncomputable def gaussian (t : ℝ) : ℝ := Real.exp (-(t ^ 2) / 2)

/-- `PARAMETERS::src` (test/AIM/aim_test.cpp:39-44) at the fixture values
`num_steps = 256`, `dt = 1`: `total_time = 256`,
`arg = (t - total_time/2) / (total_time/6)`. -/
noncomputable def test_src (t : ℝ) : ℝ := gaussian ((t - 256 / 2) / (256 / 6))

/-- The mutable `g_mat` buffer of `fill_fourier_table`
(`SpacetimeArray<double>`), modelled as an explicit total state.  The index
is `(time_idx, nx, ny, nz)`. -/
abbrev GState := ℕ × ℕ × ℕ × ℕ → ℝ

/-- Write one cell of the `g_mat` buffer. -/
def gwrite (σ : GState) (c : ℕ × ℕ × ℕ × ℕ) (v : ℝ) : GState :=
  fun d => if d = c then v else σ d

/-- Modelled from the spec (§4.2): `Interpolation::UniformLagrangeSet` lives
outside the sources.  After `evaluate_derivative_table_at_x(x, dt)`,
`evaluations[0][j]` holds the `j`-th Lagrange basis weight at fractional
offset `x`, scaled by `dt` (§4.3). -/
noncomputable def lagrange_weight (order j : ℕ) (x : ℝ) (dt : ℚ) : ℝ :=
  (dt : ℝ) * ∏ m ∈ (Finset.range (order + 1)).erase j, (x - m) / ((j : ℝ) - m)

/-- Number of elements of the time axis of `g_mat`
(aim_interaction.cpp:144-147): `extent_range(1, max_transit_steps)` has the
`max_transit_steps - 1` valid indices `1 … max_transit_steps - 1`, so
`gmatrix_table.shape()[0] = max_transit_steps - 1`. -/
noncomputable def gmat_time_shape (g : GridData) (c dt : ℚ) : ℕ :=
  (max_transit_steps g c dt - 1).toNat

/-- One iteration of the time loop of `fill_gmatrix_table`
(aim_interaction.cpp:200-214): `polynomial_idx = ceil(time_idx - arg)`; when
`0 ≤ polynomial_idx ≤ interp_order` the cell `[t][nx][ny][nz]` is written
with the Lagrange weight at the fractional part of `arg` (`split_double`,
modelled from the spec as integer/fractional split), and when `nz ≠ 0` the
mirror cell `[t][nx][ny][2*dimensions(2) - nz]` is written with the same
value. -/
noncomputable def gmat_time_step (d2 order : ℕ) (dt : ℚ) (nx ny nz : ℕ) (arg : ℝ)
    (σ : GState) (t : ℕ) : GState :=
  let polynomial_idx : ℤ := ⌈(t : ℝ) - arg⌉
  if 0 ≤ polynomial_idx ∧ polynomial_idx ≤ (order : ℤ) then
    let w := lagrange_weight order polynomial_idx.toNat (Int.fract arg) dt
    let σ1 := gwrite σ (t, nx, ny, nz) w
    if nz ≠ 0 then gwrite σ1 (t, nx, ny, 2 * d2 - nz) w else σ1
  else σ

/-- One iteration of the box loop of `fill_gmatrix_table`
(aim_interaction.cpp:187-216): skip `box_idx == 0`; otherwise
`dr = spatial_coord_of_box(box_idx) - spatial_coord_of_box(0)`,
`arg = dr.norm() / (c*dt)`, then the time loop
`for (time_idx = 1; time_idx < shape()[0]; ++time_idx)`. -/
noncomputable def gmat_box_step (g : GridData) (c dt : ℚ) (order timeShape : ℕ)
    (σ : GState) (tr : ℕ × ℕ × ℕ) : GState :=
  let box_idx := coord_to_idx g ⟨(tr.1 : ℤ), (tr.2.1 : ℤ), (tr.2.2 : ℤ)⟩
  if box_idx = 0 then σ
  else
    let dr := spatial_coord_of_box g box_idx.toNat - spatial_coord_of_box g 0
    let arg : ℝ := Real.sqrt ((dr.x ^ 2 + dr.y ^ 2 + dr.z ^ 2 : ℚ) : ℝ) / ((c : ℝ) * (dt : ℝ))
    (List.range' 1 (timeShape - 1)).foldl
      (gmat_time_step g.dimensions.z.toNat order dt tr.1 tr.2.1 tr.2.2 arg) σ

/-- The spatial triple loop of `fill_gmatrix_table`
(aim_interaction.cpp:187-189): `nx ∈ [0, dims(0))`, `ny ∈ [0, dims(1))`,
`nz ∈ [0, dims(2))`, lexicographic with `nz` fastest. -/
def gmat_triples (g : GridData) : List (ℕ × ℕ × ℕ) :=
  (List.range g.dimensions.x.toNat).flatMap fun nx =>
    (List.range g.dimensions.y.toNat).flatMap fun ny =>
      (List.range g.dimensions.z.toNat).map fun nz => (nx, ny, nz)

/-- `AIM::AimInteraction::fill_gmatrix_table` (aim_interaction.cpp:176-218)
acting on an arbitrary initial buffer state (the function takes the buffer
by non-const reference). -/
noncomputable def fill_gmatrix_table (g : GridData) (c dt : ℚ) (order : ℕ)
    (σ₀ : GState) : GState :=
  (gmat_triples g).foldl (gmat_box_step g c dt order (gmat_time_shape g c dt)) σ₀

/-- The `g_mat` contents as produced inside `fill_fourier_table`
(aim_interaction.cpp:140-174): first zero-filled (`std::fill`, line 166),
then passed to `fill_gmatrix_table`. -/
noncomputable def gmatrix_table (g : GridData) (c dt : ℚ) (order : ℕ) : GState :=
  fill_gmatrix_table g c dt order (fun _ => 0)

/-- Index set of a boost `extent_range(1, n)` axis (used for the time axis
of both `fourier_table`, aim_interaction.cpp:127-129, and `g_mat`,
aim_interaction.cpp:144-147): the half-open range `{1, …, n-1}`. -/
def stored_time_shifts (n : ℤ) : Finset ℤ := Finset.Ico 1 n

/-- Spatial extents of `g_mat` (aim_interaction.cpp:144-147):
`[dims(0)][dims(1)][2*dims(2)]` — only the third axis is doubled. -/
def gmat_spatial_extents (g : GridData) : ℤ × ℤ × ℤ :=
  (g.dimensions.x, g.dimensions.y, 2 * g.dimensions.z)

/-! ## Concrete grids used as inputs below -/

/-- The grid of the `GAUSSIAN_POINT_PROPAGATION` test (aim_test.cpp:47-57):
unit spacing, dots at `(0,0,0)` and `(4,4,4)`, padding = expansion_order = 0. -/
def testGrid : GridData := mkGrid ⟨1, 1, 1⟩ [⟨0, 0, 0⟩, ⟨4, 4, 4⟩] 0

/-- A grid with one dot at the origin and padding 1 (bounds `[-1, 2)³`). -/
def padGrid : GridData := mkGrid ⟨1, 1, 1⟩ [⟨0, 0, 0⟩] 1

/-- A grid with one dot at `(2,2,2)` and no padding. -/
def posGrid : GridData := mkGrid ⟨1, 1, 1⟩ [⟨2, 2, 2⟩] 0

/-- The grid on an empty dot collection with no padding (one box). -/
def tinyGrid : GridData := mkGrid ⟨1, 1, 1⟩ [] 0

/-- The grid on an empty dot collection with padding 2 (bounds `[-2, 3)³`). -/
def emptyPadGrid : GridData := mkGrid ⟨1, 1, 1⟩ [] 2

/-- The bounds exactly as the spec sentence describes them (componentwise
min/max of the emitters' grid coordinates only — no zero seed — expanded by
`padding` below and `padding + 1` above).  This definition follows the
spec's words, for comparison with `calculate_bounds`; on the empty
collection (outside the claim) it degenerates to the zero seed. -/
def spec_claimed_bounds (spacing : V3 ℚ) (dots : List (V3 ℚ)) (padding : ℤ) :
    V3 ℤ × V3 ℤ :=
  match dots with
  | [] => (vadds ⟨0, 0, 0⟩ (-padding), vadds ⟨0, 0, 0⟩ (padding + 1))
  | d :: rest =>
    let f := rest.foldl
      (fun (b : V3 ℤ × V3 ℤ) pos =>
        (vmin (grid_coordinate spacing pos) b.1, vmax (grid_coordinate spacing pos) b.2))
      (grid_coordinate spacing d, grid_coordinate spacing d)
    (vadds f.1 (-padding), vadds f.2 (padding + 1))

/-! ## Generic helper lemmas -/

theorem foldl_preserve {α β : Type} (P : β → Prop) (f : β → α → β) (l : List α)
    (h : ∀ b a, a ∈ l → P b → P (f b a)) (b₀ : β) (h₀ : P b₀) : P (l.foldl f b₀) := by
  induction l generalizing b₀ with
  | nil => exact h₀
  | cons a l ih =>
    exact ih (fun b a' ha' hb => h b a' (List.mem_cons_of_mem _ ha') hb) _
      (h b₀ a (List.mem_cons_self _ _) h₀)

theorem foldl_min_spec {α : Type} (f : α → ℤ) (l : List α) (a : ℤ) :
    (l.foldl (fun m p => min (f p) m) a ≤ a)
    ∧ (∀ p ∈ l, l.foldl (fun m p => min (f p) m) a ≤ f p)
    ∧ (l.foldl (fun m p => min (f p) m) a = a
        ∨ ∃ p ∈ l, l.foldl (fun m p => min (f p) m) a = f p) := by
  induction l generalizing a with
  | nil => exact ⟨le_refl a, by simp, Or.inl rfl⟩
  | cons q l ih =>
    obtain ⟨h1, h2, h3⟩ := ih (min (f q) a)
    simp only [List.foldl_cons]
    refine ⟨le_trans h1 (min_le_right _ _), ?_, ?_⟩
    · intro p hp
      rcases List.mem_cons.mp hp with h | h
      · subst h; exact le_trans h1 (min_le_left _ _)
      · exact h2 p h
    · rcases h3 with h | ⟨p, hp, hval⟩
      · rcases le_total (f q) a with hqa | hqa
        · exact Or.inr ⟨q, List.mem_cons_self _ _, by rw [h, min_eq_left hqa]⟩
        · exact Or.inl (by rw [h, min_eq_right hqa])
      · exact Or.inr ⟨p, List.mem_cons_of_mem _ hp, hval⟩

theorem foldl_max_spec {α : Type} (f : α → ℤ) (l : List α) (a : ℤ) :
    (a ≤ l.foldl (fun m p => max (f p) m) a)
    ∧ (∀ p ∈ l, f p ≤ l.foldl (fun m p => max (f p) m) a)
    ∧ (l.foldl (fun m p => max (f p) m) a = a
        ∨ ∃ p ∈ l, l.foldl (fun m p => max (f p) m) a = f p) := by
  induction l generalizing a with
  | nil => exact ⟨le_refl a, by simp, Or.inl rfl⟩
  | cons q l ih =>
    obtain ⟨h1, h2, h3⟩ := ih (max (f q) a)
    simp only [List.foldl_cons]
    refine ⟨le_trans (le_max_right _ _) h1, ?_, ?_⟩
    · intro p hp
      rcases List.mem_cons.mp hp with h | h
      · subst h; exact le_trans (le_max_left _ _) h1
      · exact h2 p h
    · rcases h3 with h | ⟨p, hp, hval⟩
      · rcases le_total (f q) a with hqa | hqa
        · exact Or.inl (by rw [h, max_eq_right hqa])
        · exact Or.inr ⟨q, List.mem_cons_self _ _, by rw [h, max_eq_left hqa]⟩
      · exact Or.inr ⟨p, List.mem_cons_of_mem _ hp, hval⟩

theorem bounds_fold_split (spacing : V3 ℚ) (l : List (V3 ℚ)) (b : V3 ℤ × V3 ℤ) :
    l.foldl
      (fun (b : V3 ℤ × V3 ℤ) pos =>
        (vmin (grid_coordinate spacing pos) b.1, vmax (grid_coordinate spacing pos) b.2)) b
    = (l.foldl (fun m pos => vmin (grid_coordinate spacing pos) m) b.1,
       l.foldl (fun m pos => vmax (grid_coordinate spacing pos) m) b.2) := by
  induction l generalizing b with
  | nil => rfl
  | cons q l ih => exact ih _

theorem foldl_vop_proj {α : Type} (proj : V3 ℤ → ℤ) (op : V3 ℤ → V3 ℤ → V3 ℤ)
    (sop : ℤ → ℤ → ℤ) (hop : ∀ u v, proj (op u v) = sop (proj u) (proj v))
    (f : α → V3 ℤ) (l : List α) (a : V3 ℤ) :
    proj (l.foldl (fun m p => op (f p) m) a)
      = l.foldl (fun m p => sop (proj (f p)) m) (proj a) := by
  induction l generalizing a with
  | nil => rfl
  | cons q l ih => rw [List.foldl_cons, List.foldl_cons, ih, hop]

theorem encode3_div (P Q a b c : ℕ) (ha : a < P) (hb : b < Q) :
    (a + P * (b + Q * c)) / (P * Q) = c := by
  have hP : 0 < P := lt_of_le_of_lt (Nat.zero_le a) ha
  have hQ : 0 < Q := lt_of_le_of_lt (Nat.zero_le b) hb
  have key : a + P * (b + Q * c) = (a + P * b) + (P * Q) * c := by ring
  have hlt : a + P * b < P * Q := by
    calc a + P * b < P + P * b := by omega
    _ = P * (b + 1) := by ring
    _ ≤ P * Q := Nat.mul_le_mul_left P hb
  rw [key, Nat.add_mul_div_left _ _ (Nat.mul_pos hP hQ), Nat.div_eq_of_lt hlt,
    Nat.zero_add]

theorem encode3_rem (P Q a b c : ℕ) (ha : a < P) (hb : b < Q) :
    (a + P * (b + Q * c)) - ((a + P * (b + Q * c)) / (P * Q)) * (P * Q) = a + P * b := by
  rw [encode3_div P Q a b c ha hb]
  have key : a + P * (b + Q * c) = (a + P * b) + c * (P * Q) := by ring
  rw [key, Nat.add_sub_cancel]

theorem encode3_mid (P Q a b c : ℕ) (ha : a < P) (hb : b < Q) :
    ((a + P * (b + Q * c)) - ((a + P * (b + Q * c)) / (P * Q)) * (P * Q)) / P = b := by
  have hP : 0 < P := lt_of_le_of_lt (Nat.zero_le a) ha
  rw [encode3_rem P Q a b c ha hb, Nat.add_mul_div_left _ _ hP, Nat.div_eq_of_lt ha,
    Nat.zero_add]

theorem encode3_low (P Q a b c : ℕ) (ha : a < P) (hb : b < Q) :
    ((a + P * (b + Q * c)) - ((a + P * (b + Q * c)) / (P * Q)) * (P * Q)) % P = a := by
  rw [encode3_rem P Q a b c ha hb, Nat.add_mul_mod_self_left, Nat.mod_eq_of_lt ha]

theorem decode3_encode (P Q i : ℕ) :
    ((i - (i / (P * Q)) * (P * Q)) % P) + P * ((i - (i / (P * Q)) * (P * Q)) / P)
      + (P * Q) * (i / (P * Q)) = i := by
  have hD : (i / (P * Q)) * (P * Q) ≤ i := Nat.div_mul_le_self i (P * Q)
  have hsub : (i - (i / (P * Q)) * (P * Q)) + (P * Q) * (i / (P * Q)) = i := by
    rw [mul_comm (P * Q) (i / (P * Q))]
    exact Nat.sub_add_cancel hD
  rw [Nat.mod_add_div (i - (i / (P * Q)) * (P * Q)) P, hsub]

theorem decode3_encode_assoc (P Q i : ℕ) :
    ((i - (i / (P * Q)) * (P * Q)) % P)
      + P * (((i - (i / (P * Q)) * (P * Q)) / P) + Q * (i / (P * Q))) = i := by
  have hd := decode3_encode P Q i
  generalize hrq : i / (P * Q) = z at hd ⊢
  generalize hrr : i - z * (P * Q) = r at hd ⊢
  rw [Nat.mul_add, ← Nat.add_assoc, ← Nat.mul_assoc]
  exact hd

theorem flatMap_length_const {α β : Type} (l : List α) (f : α → List β) (blk : ℕ)
    (h : ∀ a ∈ l, (f a).length = blk) : (l.flatMap f).length = l.length * blk := by
  induction l with
  | nil => simp
  | cons a l ih =>
    rw [List.flatMap_cons, List.length_append, h a (List.mem_cons_self _ _),
      ih (fun a' ha' => h a' (List.mem_cons_of_mem _ ha')), List.length_cons]
    ring

theorem flatMap_range_getElem {β : Type} (f : ℕ → List β) (blk n a b : ℕ)
    (hlen : ∀ x, (f x).length = blk) (ha : a < n) (hb : b < blk) :
    ((List.range n).flatMap f)[a * blk + b]? = (f a)[b]? := by
  induction n with
  | zero => omega
  | succ n ih =>
    rw [List.range_succ, List.flatMap_append]
    have hlength : ((List.range n).flatMap f).length = n * blk := by
      rw [flatMap_length_const _ f blk (fun x _ => hlen x), List.length_range]
    rcases Nat.lt_or_ge a n with h | h
    · have hidx : a * blk + b < n * blk := by
        calc a * blk + b < a * blk + blk := by omega
        _ = (a + 1) * blk := by ring
        _ ≤ n * blk := Nat.mul_le_mul_right blk h
      rw [List.getElem?_append, hlength, if_pos hidx]
      exact ih h
    · have ha' : a = n := by omega
      subst ha'
      rw [List.getElem?_append, hlength, if_neg (by omega)]
      have : a * blk + b - a * blk = b := by omega
      rw [this, List.flatMap_cons, List.flatMap_nil, List.append_nil]

theorem ratTrunc_intCast (k : ℤ) : ratTrunc (k : ℚ) = k := by
  unfold ratTrunc
  split
  · exact Int.floor_intCast k
  · rw [← Int.cast_neg, Int.floor_intCast, neg_neg]

theorem ceil_sqrt_75 : ⌈Real.sqrt 75⌉ = (9 : ℤ) := by
  have h1 : Real.sqrt 75 ≤ 9 := by
    rw [show (9 : ℝ) = Real.sqrt 81 by
      rw [show (81 : ℝ) = 9 ^ 2 by norm_num, Real.sqrt_sq (by norm_num : (0:ℝ) ≤ 9)]]
    exact Real.sqrt_le_sqrt (by norm_num)
  have h2 : (8 : ℝ) < Real.sqrt 75 := by
    rw [show (8 : ℝ) = Real.sqrt 64 by
      rw [show (64 : ℝ) = 8 ^ 2 by norm_num, Real.sqrt_sq (by norm_num : (0:ℝ) ≤ 8)]]
    exact Real.sqrt_lt_sqrt (by norm_num) (by norm_num)
  rw [Int.ceil_eq_iff]
  constructor
  · push_cast; linarith
  · push_cast; linarith

/-! ## Evaluations of the concrete grids -/

theorem testGrid_val :
    testGrid = ⟨⟨1, 1, 1⟩, 0, (⟨0, 0, 0⟩, ⟨5, 5, 5⟩), ⟨5, 5, 5⟩, 125⟩ := by
  show mkGrid _ _ _ = _
  norm_num [mkGrid, calculate_bounds, grid_coordinate, vmin, vmax, vadds]
  constructor <;> rfl

theorem padGrid_val :
    padGrid = ⟨⟨1, 1, 1⟩, 1, (⟨-1, -1, -1⟩, ⟨2, 2, 2⟩), ⟨3, 3, 3⟩, 27⟩ := by
  show mkGrid _ _ _ = _
  norm_num [mkGrid, calculate_bounds, grid_coordinate, vmin, vmax, vadds]
  constructor <;> rfl

theorem posGrid_val :
    posGrid = ⟨⟨1, 1, 1⟩, 0, (⟨0, 0, 0⟩, ⟨3, 3, 3⟩), ⟨3, 3, 3⟩, 27⟩ := by
  show mkGrid _ _ _ = _
  norm_num [mkGrid, calculate_bounds, grid_coordinate, vmin, vmax, vadds]
  constructor <;> rfl

theorem tinyGrid_val :
    tinyGrid = ⟨⟨1, 1, 1⟩, 0, (⟨0, 0, 0⟩, ⟨1, 1, 1⟩), ⟨1, 1, 1⟩, 1⟩ := by
  show mkGrid _ _ _ = _
  norm_num [mkGrid, calculate_bounds, grid_coordinate, vmin, vmax, vadds]
  constructor <;> rfl

theorem emptyPadGrid_val :
    emptyPadGrid = ⟨⟨1, 1, 1⟩, 2, (⟨-2, -2, -2⟩, ⟨3, 3, 3⟩), ⟨5, 5, 5⟩, 125⟩ := by
  show mkGrid _ _ _ = _
  norm_num [mkGrid, calculate_bounds, grid_coordinate, vmin, vmax, vadds]
  constructor <;> rfl

@[simp] theorem vadd_x [Add α] (a b : V3 α) : (a + b).x = a.x + b.x := rfl

@[simp] theorem vadd_y [Add α] (a b : V3 α) : (a + b).y = a.y + b.y := rfl

@[simp] theorem vadd_z [Add α] (a b : V3 α) : (a + b).z = a.z + b.z := rfl

@[simp] theorem vsub_x [Sub α] (a b : V3 α) : (a - b).x = a.x - b.x := rfl

@[simp] theorem vsub_y [Sub α] (a b : V3 α) : (a - b).y = a.y - b.y := rfl

@[simp] theorem vsub_z [Sub α] (a b : V3 α) : (a - b).z = a.z - b.z := rfl

@[simp] theorem vmul_x [Mul α] (a b : V3 α) : (a * b).x = a.x * b.x := rfl

@[simp] theorem vmul_y [Mul α] (a b : V3 α) : (a * b).y = a.y * b.y := rfl

@[simp] theorem vmul_z [Mul α] (a b : V3 α) : (a * b).z = a.z * b.z := rfl

@[simp] theorem vmin_comp_x (a b : V3 ℤ) : (vmin a b).x = min a.x b.x := rfl

@[simp] theorem vmin_comp_y (a b : V3 ℤ) : (vmin a b).y = min a.y b.y := rfl

@[simp] theorem vmin_comp_z (a b : V3 ℤ) : (vmin a b).z = min a.z b.z := rfl

@[simp] theorem vmax_comp_x (a b : V3 ℤ) : (vmax a b).x = max a.x b.x := rfl

@[simp] theorem vmax_comp_y (a b : V3 ℤ) : (vmax a b).y = max a.y b.y := rfl

@[simp] theorem vmax_comp_z (a b : V3 ℤ) : (vmax a b).z = max a.z b.z := rfl

@[simp] theorem vadds_comp_x (v : V3 ℤ) (s : ℤ) : (vadds v s).x = v.x + s := rfl

@[simp] theorem vadds_comp_y (v : V3 ℤ) (s : ℤ) : (vadds v s).y = v.y + s := rfl

@[simp] theorem vadds_comp_z (v : V3 ℤ) (s : ℤ) : (vadds v s).z = v.z + s := rfl

@[simp] theorem castQ_comp_x (v : V3 ℤ) : (castQ v).x = (v.x : ℚ) := rfl

@[simp] theorem castQ_comp_y (v : V3 ℤ) : (castQ v).y = (v.y : ℚ) := rfl

@[simp] theorem castQ_comp_z (v : V3 ℤ) : (castQ v).z = (v.z : ℚ) := rfl

theorem mkGrid_spacing (spacing : V3 ℚ) (dots : List (V3 ℚ)) (padding : ℤ) :
    (mkGrid spacing dots padding).spacing = spacing := rfl

theorem mkGrid_bounds (spacing : V3 ℚ) (dots : List (V3 ℚ)) (padding : ℤ) :
    (mkGrid spacing dots padding).bounds = calculate_bounds spacing dots padding := rfl

theorem mkGrid_dimensions (spacing : V3 ℚ) (dots : List (V3 ℚ)) (padding : ℤ) :
    (mkGrid spacing dots padding).dimensions
      = (calculate_bounds spacing dots padding).2 - (calculate_bounds spacing dots padding).1 := rfl

theorem mkGrid_num_boxes (spacing : V3 ℚ) (dots : List (V3 ℚ)) (padding : ℤ) :
    (mkGrid spacing dots padding).num_boxes
      = (mkGrid spacing dots padding).dimensions.x
        * (mkGrid spacing dots padding).dimensions.y
        * (mkGrid spacing dots padding).dimensions.z := rfl

theorem bounds_min_proj (proj : V3 ℤ → ℤ)
    (hmin : ∀ u v, proj (vmin u v) = min (proj u) (proj v))
    (hadds : ∀ v s, proj (vadds v s) = proj v + s)
    (hzero : proj ⟨0, 0, 0⟩ = 0)
    (spacing : V3 ℚ) (dots : List (V3 ℚ)) (padding : ℤ) :
    proj (calculate_bounds spacing dots padding).1
      = dots.foldl (fun m p => min (proj (grid_coordinate spacing p)) m) 0 - padding := by
  show proj (vadds
      ((dots.foldl
        (fun (b : V3 ℤ × V3 ℤ) pos =>
          (vmin (grid_coordinate spacing pos) b.1, vmax (grid_coordinate spacing pos) b.2))
        (⟨0, 0, 0⟩, ⟨0, 0, 0⟩)).1) (-padding)) = _
  rw [bounds_fold_split, hadds]
  show proj (dots.foldl (fun m pos => vmin (grid_coordinate spacing pos) m) ⟨0, 0, 0⟩)
      + -padding = _
  rw [foldl_vop_proj proj vmin min hmin (fun p => grid_coordinate spacing p) dots ⟨0, 0, 0⟩,
    hzero]
  ring

theorem bounds_max_proj (proj : V3 ℤ → ℤ)
    (hmax : ∀ u v, proj (vmax u v) = max (proj u) (proj v))
    (hadds : ∀ v s, proj (vadds v s) = proj v + s)
    (hzero : proj ⟨0, 0, 0⟩ = 0)
    (spacing : V3 ℚ) (dots : List (V3 ℚ)) (padding : ℤ) :
    proj (calculate_bounds spacing dots padding).2
      = dots.foldl (fun m p => max (proj (grid_coordinate spacing p)) m) 0 + padding + 1 := by
  show proj (vadds
      ((dots.foldl
        (fun (b : V3 ℤ × V3 ℤ) pos =>
          (vmin (grid_coordinate spacing pos) b.1, vmax (grid_coordinate spacing pos) b.2))
        (⟨0, 0, 0⟩, ⟨0, 0, 0⟩)).2) (padding + 1)) = _
  rw [bounds_fold_split, hadds]
  show proj (dots.foldl (fun m pos => vmax (grid_coordinate spacing pos) m) ⟨0, 0, 0⟩)
      + (padding + 1) = _
  rw [foldl_vop_proj proj vmax max hmax (fun p => grid_coordinate spacing p) dots ⟨0, 0, 0⟩,
    hzero]
  ring

theorem testGrid_mts : max_transit_steps testGrid 1 1 = 9 := by
  have hg : max_diagonal testGrid = Real.sqrt 75 := by
    rw [testGrid_val]
    unfold max_diagonal
    norm_num
  unfold max_transit_steps
  rw [hg]
  norm_num [ceil_sqrt_75]

theorem v3_eq {α : Type} {a b : V3 α} (hx : a.x = b.x) (hy : a.y = b.y) (hz : a.z = b.z) :
    a = b := by
  cases a; cases b
  cases hx; cases hy; cases hz
  rfl

/-- The value `m` is the minimum of `0` together with the elements of `s`. -/
def is_min_with_zero (s : List ℤ) (m : ℤ) : Prop :=
  m ≤ 0 ∧ (∀ x ∈ s, m ≤ x) ∧ (m = 0 ∨ m ∈ s)

/-- The value `m` is the maximum of `0` together with the elements of `s`. -/
def is_max_with_zero (s : List ℤ) (m : ℤ) : Prop :=
  0 ≤ m ∧ (∀ x ∈ s, x ≤ m) ∧ (m = 0 ∨ m ∈ s)

theorem is_min_with_zero_foldl {α : Type} (f : α → ℤ) (l : List α) :
    is_min_with_zero (l.map f) (l.foldl (fun m p => min (f p) m) 0) := by
  obtain ⟨h1, h2, h3⟩ := foldl_min_spec f l 0
  refine ⟨h1, ?_, ?_⟩
  · intro x hx
    obtain ⟨p, hp, rfl⟩ := List.mem_map.mp hx
    exact h2 p hp
  · rcases h3 with h | ⟨p, hp, h⟩
    · exact Or.inl h
    · exact Or.inr (h ▸ List.mem_map_of_mem f hp)

theorem is_max_with_zero_foldl {α : Type} (f : α → ℤ) (l : List α) :
    is_max_with_zero (l.map f) (l.foldl (fun m p => max (f p) m) 0) := by
  obtain ⟨h1, h2, h3⟩ := foldl_max_spec f l 0
  refine ⟨h1, ?_, ?_⟩
  · intro x hx
    obtain ⟨p, hp, rfl⟩ := List.mem_map.mp hx
    exact h2 p hp
  · rcases h3 with h | ⟨p, hp, h⟩
    · exact Or.inl h
    · exact Or.inr (h ▸ List.mem_map_of_mem f hp)

/-! ## Claim C10 -/

/-- C10: for every spacing, every padding ≥ 0 and every emitter collection
(including the empty one), the bounds computed by `calculate_bounds` contain
the origin box coordinate — componentwise `bounds.min ≤ -padding ≤ 0` and
`bounds.max ≥ padding + 1` — every dimension is strictly positive, and
construction on an empty collection yields dimensions `2*padding + 1` per
axis. -/
theorem bounds_contain_origin (spacing : V3 ℚ) (dots : List (V3 ℚ)) (padding : ℤ)
    (hpad : 0 ≤ padding) :
    vle (mkGrid spacing dots padding).bounds.1 ⟨-padding, -padding, -padding⟩
    ∧ -padding ≤ 0
    ∧ vle ⟨padding + 1, padding + 1, padding + 1⟩ (mkGrid spacing dots padding).bounds.2
    ∧ vlt ⟨0, 0, 0⟩ (mkGrid spacing dots padding).dimensions
    ∧ (dots = [] →
        (mkGrid spacing dots padding).dimensions
          = ⟨2 * padding + 1, 2 * padding + 1, 2 * padding + 1⟩) := by
  have hminx := bounds_min_proj V3.x (fun u v => rfl) (fun v s => rfl) rfl spacing dots padding
  have hminy := bounds_min_proj V3.y (fun u v => rfl) (fun v s => rfl) rfl spacing dots padding
  have hminz := bounds_min_proj V3.z (fun u v => rfl) (fun v s => rfl) rfl spacing dots padding
  have hmaxx := bounds_max_proj V3.x (fun u v => rfl) (fun v s => rfl) rfl spacing dots padding
  have hmaxy := bounds_max_proj V3.y (fun u v => rfl) (fun v s => rfl) rfl spacing dots padding
  have hmaxz := bounds_max_proj V3.z (fun u v => rfl) (fun v s => rfl) rfl spacing dots padding
  obtain ⟨hFx, -, -⟩ := foldl_min_spec (fun p => (grid_coordinate spacing p).x) dots 0
  obtain ⟨hFy, -, -⟩ := foldl_min_spec (fun p => (grid_coordinate spacing p).y) dots 0
  obtain ⟨hFz, -, -⟩ := foldl_min_spec (fun p => (grid_coordinate spacing p).z) dots 0
  obtain ⟨hGx, -, -⟩ := foldl_max_spec (fun p => (grid_coordinate spacing p).x) dots 0
  obtain ⟨hGy, -, -⟩ := foldl_max_spec (fun p => (grid_coordinate spacing p).y) dots 0
  obtain ⟨hGz, -, -⟩ := foldl_max_spec (fun p => (grid_coordinate spacing p).z) dots 0
  rw [mkGrid_bounds, mkGrid_dimensions]
  refine ⟨⟨?_, ?_, ?_⟩, by omega, ⟨?_, ?_, ?_⟩, ⟨?_, ?_, ?_⟩, ?_⟩
  · show (calculate_bounds spacing dots padding).1.x ≤ -padding
    rw [hminx]; omega
  · show (calculate_bounds spacing dots padding).1.y ≤ -padding
    rw [hminy]; omega
  · show (calculate_bounds spacing dots padding).1.z ≤ -padding
    rw [hminz]; omega
  · show padding + 1 ≤ (calculate_bounds spacing dots padding).2.x
    rw [hmaxx]; omega
  · show padding + 1 ≤ (calculate_bounds spacing dots padding).2.y
    rw [hmaxy]; omega
  · show padding + 1 ≤ (calculate_bounds spacing dots padding).2.z
    rw [hmaxz]; omega
  · show 0 < ((calculate_bounds spacing dots padding).2
      - (calculate_bounds spacing dots padding).1).x
    rw [vsub_x, hminx, hmaxx]; omega
  · show 0 < ((calculate_bounds spacing dots padding).2
      - (calculate_bounds spacing dots padding).1).y
    rw [vsub_y, hminy, hmaxy]; omega
  · show 0 < ((calculate_bounds spacing dots padding).2
      - (calculate_bounds spacing dots padding).1).z
    rw [vsub_z, hminz, hmaxz]; omega
  · intro h
    subst h
    refine v3_eq ?_ ?_ ?_
    · rw [vsub_x, hminx, hmaxx]; simp only [List.foldl_nil]; ring
    · rw [vsub_y, hminy, hmaxy]; simp only [List.foldl_nil]; ring
    · rw [vsub_z, hminz, hmaxz]; simp only [List.foldl_nil]; ring

/-- Witness for C10 at spacing `(1,1,1)`, the empty dot collection and
padding `0`. -/
theorem bounds_contain_origin_witness :
    vle (mkGrid ⟨1, 1, 1⟩ [] 0).bounds.1 ⟨-0, -0, -0⟩
    ∧ -(0 : ℤ) ≤ 0
    ∧ vle ⟨(0 : ℤ) + 1, 0 + 1, 0 + 1⟩ (mkGrid ⟨1, 1, 1⟩ [] 0).bounds.2
    ∧ vlt ⟨0, 0, 0⟩ (mkGrid ⟨1, 1, 1⟩ [] 0).dimensions
    ∧ (([] : List (V3 ℚ)) = [] →
        (mkGrid ⟨1, 1, 1⟩ [] 0).dimensions = ⟨2 * 0 + 1, 2 * 0 + 1, 2 * 0 + 1⟩) :=
  bounds_contain_origin ⟨1, 1, 1⟩ [] 0 (by decide)

/-! ## Claim C5 -/

/-- C5: for every grid constructed with padding ≥ 0 and every emitter of the
collection, `grid_coordinate(position)` lies componentwise inside
`[bounds.min, bounds.max)`. -/
theorem padding_containment (spacing : V3 ℚ) (dots : List (V3 ℚ)) (padding : ℤ)
    (pos : V3 ℚ) (hpad : 0 ≤ padding) (hpos : pos ∈ dots) :
    vle (mkGrid spacing dots padding).bounds.1 (grid_coordinate spacing pos)
    ∧ vlt (grid_coordinate spacing pos) (mkGrid spacing dots padding).bounds.2 := by
  have hminx := bounds_min_proj V3.x (fun u v => rfl) (fun v s => rfl) rfl spacing dots padding
  have hminy := bounds_min_proj V3.y (fun u v => rfl) (fun v s => rfl) rfl spacing dots padding
  have hminz := bounds_min_proj V3.z (fun u v => rfl) (fun v s => rfl) rfl spacing dots padding
  have hmaxx := bounds_max_proj V3.x (fun u v => rfl) (fun v s => rfl) rfl spacing dots padding
  have hmaxy := bounds_max_proj V3.y (fun u v => rfl) (fun v s => rfl) rfl spacing dots padding
  have hmaxz := bounds_max_proj V3.z (fun u v => rfl) (fun v s => rfl) rfl spacing dots padding
  have hFx := (foldl_min_spec (fun p => (grid_coordinate spacing p).x) dots 0).2.1 pos hpos
  have hFy := (foldl_min_spec (fun p => (grid_coordinate spacing p).y) dots 0).2.1 pos hpos
  have hFz := (foldl_min_spec (fun p => (grid_coordinate spacing p).z) dots 0).2.1 pos hpos
  have hGx := (foldl_max_spec (fun p => (grid_coordinate spacing p).x) dots 0).2.1 pos hpos
  have hGy := (foldl_max_spec (fun p => (grid_coordinate spacing p).y) dots 0).2.1 pos hpos
  have hGz := (foldl_max_spec (fun p => (grid_coordinate spacing p).z) dots 0).2.1 pos hpos
  rw [mkGrid_bounds]
  exact ⟨⟨by rw [hminx]; omega, by rw [hminy]; omega, by rw [hminz]; omega⟩,
    ⟨by rw [hmaxx]; omega, by rw [hmaxy]; omega, by rw [hmaxz]; omega⟩⟩

/-- Witness for C5 at spacing `(1,1,1)`, one dot at the origin, padding `0`. -/
theorem padding_containment_witness :
    vle (mkGrid ⟨1, 1, 1⟩ [⟨0, 0, 0⟩] 0).bounds.1 (grid_coordinate ⟨1, 1, 1⟩ ⟨0, 0, 0⟩)
    ∧ vlt (grid_coordinate ⟨1, 1, 1⟩ ⟨0, 0, 0⟩) (mkGrid ⟨1, 1, 1⟩ [⟨0, 0, 0⟩] 0).bounds.2 :=
  padding_containment ⟨1, 1, 1⟩ [⟨0, 0, 0⟩] 0 ⟨0, 0, 0⟩ (by decide)
    (List.mem_cons_self _ _)

/-! ## Claim C3 -/

/-- C3 counterexample: for the single emitter at position `(2,2,2)` with unit
spacing and padding `0`, the constructed bounds differ from the
spec-described bounds (componentwise min/max over the emitters only):
`calculate_bounds` seeds its fold with zero, so `bounds.min = (0,0,0)` while
the spec formula gives `(2,2,2)`. -/
theorem calculate_bounds_cex :
    posGrid.bounds ≠ spec_claimed_bounds ⟨1, 1, 1⟩ [⟨2, 2, 2⟩] 0
    ∧ posGrid.bounds.1 = ⟨0, 0, 0⟩
    ∧ (spec_claimed_bounds ⟨1, 1, 1⟩ [⟨2, 2, 2⟩] 0).1 = ⟨2, 2, 2⟩ := by
  have hspec : spec_claimed_bounds ⟨1, 1, 1⟩ [⟨2, 2, 2⟩] 0 = (⟨2, 2, 2⟩, ⟨3, 3, 3⟩) := by
    norm_num [spec_claimed_bounds, grid_coordinate, vadds]
  have hpos : posGrid.bounds = (⟨0, 0, 0⟩, ⟨3, 3, 3⟩) := by rw [posGrid_val]
  refine ⟨?_, by rw [hpos], by rw [hspec]⟩
  rw [hpos, hspec]
  decide

/-- C3 amended: `calculate_bounds` yields `bounds.min + padding` as the
componentwise minimum of zero *and* all emitter grid coordinates, and
`bounds.max - (padding + 1)` as the componentwise maximum of zero *and* all
emitter grid coordinates (the fold is seeded with the zero vector). -/
theorem calculate_bounds_min_max_zero (spacing : V3 ℚ) (dots : List (V3 ℚ)) (padding : ℤ) :
    is_min_with_zero (dots.map fun p => (grid_coordinate spacing p).x)
      ((calculate_bounds spacing dots padding).1.x + padding)
    ∧ is_min_with_zero (dots.map fun p => (grid_coordinate spacing p).y)
      ((calculate_bounds spacing dots padding).1.y + padding)
    ∧ is_min_with_zero (dots.map fun p => (grid_coordinate spacing p).z)
      ((calculate_bounds spacing dots padding).1.z + padding)
    ∧ is_max_with_zero (dots.map fun p => (grid_coordinate spacing p).x)
      ((calculate_bounds spacing dots padding).2.x - (padding + 1))
    ∧ is_max_with_zero (dots.map fun p => (grid_coordinate spacing p).y)
      ((calculate_bounds spacing dots padding).2.y - (padding + 1))
    ∧ is_max_with_zero (dots.map fun p => (grid_coordinate spacing p).z)
      ((calculate_bounds spacing dots padding).2.z - (padding + 1)) := by
  have hminx := bounds_min_proj V3.x (fun u v => rfl) (fun v s => rfl) rfl spacing dots padding
  have hminy := bounds_min_proj V3.y (fun u v => rfl) (fun v s => rfl) rfl spacing dots padding
  have hminz := bounds_min_proj V3.z (fun u v => rfl) (fun v s => rfl) rfl spacing dots padding
  have hmaxx := bounds_max_proj V3.x (fun u v => rfl) (fun v s => rfl) rfl spacing dots padding
  have hmaxy := bounds_max_proj V3.y (fun u v => rfl) (fun v s => rfl) rfl spacing dots padding
  have hmaxz := bounds_max_proj V3.z (fun u v => rfl) (fun v s => rfl) rfl spacing dots padding
  refine ⟨?_, ?_, ?_, ?_, ?_, ?_⟩
  · rw [hminx, sub_add_cancel]; exact is_min_with_zero_foldl _ dots
  · rw [hminy, sub_add_cancel]; exact is_min_with_zero_foldl _ dots
  · rw [hminz, sub_add_cancel]; exact is_min_with_zero_foldl _ dots
  · rw [hmaxx, add_assoc, add_sub_cancel_right]; exact is_max_with_zero_foldl _ dots
  · rw [hmaxy, add_assoc, add_sub_cancel_right]; exact is_max_with_zero_foldl _ dots
  · rw [hmaxz, add_assoc, add_sub_cancel_right]; exact is_max_with_zero_foldl _ dots

/-! ## Claim C4 -/

/-- C4 counterexample: at position `(-1/2,-1/2,-1/2)` with unit spacing the
inline `grid.h` `grid_coordinate` (truncation toward zero) yields `(0,0,0)`,
while the elementwise floor of the componentwise quotient — which is what
the out-of-line `aim_interaction.cpp` `grid_coordinate` computes — is
`(-1,-1,-1)`; so not every `grid_coordinate` in the sources floors. -/
theorem grid_coordinate_floor_cex :
    grid_coordinate_h ⟨1, 1, 1⟩ ⟨-1/2, -1/2, -1/2⟩
      ≠ grid_coordinate ⟨1, 1, 1⟩ ⟨-1/2, -1/2, -1/2⟩
    ∧ grid_coordinate_h ⟨1, 1, 1⟩ ⟨-1/2, -1/2, -1/2⟩ = ⟨0, 0, 0⟩
    ∧ grid_coordinate ⟨1, 1, 1⟩ ⟨-1/2, -1/2, -1/2⟩ = ⟨-1, -1, -1⟩ := by
  have h1 : grid_coordinate_h ⟨1, 1, 1⟩ ⟨-1/2, -1/2, -1/2⟩ = ⟨0, 0, 0⟩ := by
    norm_num [grid_coordinate_h, ratTrunc]
  have h2 : grid_coordinate ⟨1, 1, 1⟩ ⟨-1/2, -1/2, -1/2⟩ = ⟨-1, -1, -1⟩ := by
    norm_num [grid_coordinate]
  exact ⟨by rw [h1, h2]; decide, h1, h2⟩

/-- C4 amended: the out-of-line `grid_coordinate` of `aim_interaction.cpp`
has exact floor semantics — componentwise it is the unique integer with
`g ≤ pos/spacing < g + 1` — for every position, negative components
included; the inline `grid.h` variant instead truncates toward zero. -/
theorem grid_coordinate_floor_semantics (spacing pos : V3 ℚ) :
    ((grid_coordinate spacing pos).x : ℚ) ≤ pos.x / spacing.x
    ∧ pos.x / spacing.x < (grid_coordinate spacing pos).x + 1
    ∧ ((grid_coordinate spacing pos).y : ℚ) ≤ pos.y / spacing.y
    ∧ pos.y / spacing.y < (grid_coordinate spacing pos).y + 1
    ∧ ((grid_coordinate spacing pos).z : ℚ) ≤ pos.z / spacing.z
    ∧ pos.z / spacing.z < (grid_coordinate spacing pos).z + 1 :=
  ⟨Int.floor_le _, Int.lt_floor_add_one _, Int.floor_le _, Int.lt_floor_add_one _,
    Int.floor_le _, Int.lt_floor_add_one _⟩

/-! ## Claim C1 -/

/-- C1: `AimInteraction::evaluate` returns zero for every dot at every step
(its body is `results = 0; return results;`), so against the Gaussian source
of the propagation test the relative error is exactly `1`, never below
`1e-5`: the end-to-end propagation property fails on this code. -/
theorem evaluate_returns_zero_not_gaussian :
    ∀ (step : ℤ) (i : ℕ) (t : ℝ),
      aim_evaluate step i = 0
      ∧ (1e-5 : ℝ) < |(test_src t - (aim_evaluate step i).re) / test_src t| := by
  intro step i t
  have hpos : 0 < test_src t := by
    show 0 < Real.exp _
    exact Real.exp_pos _
  refine ⟨rfl, ?_⟩
  have hre : (aim_evaluate step i).re = 0 := rfl
  rw [hre, sub_zero, div_self (ne_of_gt hpos), abs_one]
  norm_num

/-! ## Claim C2 -/

theorem int_toNat_mul {m n : ℤ} (hm : 0 ≤ m) (hn : 0 ≤ n) :
    (m * n).toNat = m.toNat * n.toNat := by
  have h1 : m = (m.toNat : ℤ) := (Int.toNat_of_nonneg hm).symm
  have h2 : n = (n.toNat : ℤ) := (Int.toNat_of_nonneg hn).symm
  conv_lhs => rw [h1, h2]
  rw [← Nat.cast_mul, Int.toNat_natCast]

theorem idx_to_coord_x (g : GridData) (n : ℕ) :
    (idx_to_coord g n).x
      = (((n - (n / (g.dimensions.x * g.dimensions.y).toNat)
            * (g.dimensions.x * g.dimensions.y).toNat)
          % g.dimensions.x.toNat : ℕ) : ℤ) := rfl

theorem idx_to_coord_y (g : GridData) (n : ℕ) :
    (idx_to_coord g n).y
      = (((n - (n / (g.dimensions.x * g.dimensions.y).toNat)
            * (g.dimensions.x * g.dimensions.y).toNat)
          / g.dimensions.x.toNat : ℕ) : ℤ) := rfl

theorem idx_to_coord_z (g : GridData) (n : ℕ) :
    (idx_to_coord g n).z
      = ((n / (g.dimensions.x * g.dimensions.y).toNat : ℕ) : ℤ) := rfl

/-- C2 counterexample: `padGrid` (one dot at the origin, padding 1) has
bounds `[-1, 2)³`; the coordinate `(-1,-1,-1)` is inside the bounds, yet
`idx_to_coord (coord_to_idx (-1,-1,-1)) = (0,0,0) ≠ (-1,-1,-1)`: the
out-of-line pair of `aim_interaction.cpp` is not mutually inverse on
absolute coordinates as soon as `bounds.min ≠ 0`. -/
theorem coord_idx_roundtrip_cex :
    vle padGrid.bounds.1 ⟨-1, -1, -1⟩
    ∧ vlt ⟨-1, -1, -1⟩ padGrid.bounds.2
    ∧ idx_to_coord padGrid (coord_to_idx padGrid ⟨-1, -1, -1⟩).toNat ≠ ⟨-1, -1, -1⟩
    ∧ idx_to_coord padGrid (coord_to_idx padGrid ⟨-1, -1, -1⟩).toNat = ⟨0, 0, 0⟩ := by
  rw [padGrid_val]
  decide

/-- C2 amended: for any grid whose fields satisfy the constructor relation
`dimensions = bounds.max - bounds.min`, the round trips hold *relative to
`bounds.min`*: for every coordinate `c` inside the bounds,
`idx_to_coord (coord_to_idx c) = c - bounds.min`, and for every box index
`i < num_boxes`, `coord_to_idx (idx_to_coord i + bounds.min) = i`.  (The
claim as stated — with `c` itself on the left — holds only when
`bounds.min = 0`.) -/
theorem coord_idx_roundtrip_relative (g : GridData)
    (hdim : g.dimensions = g.bounds.2 - g.bounds.1) (c : V3 ℤ)
    (hc1 : vle g.bounds.1 c) (hc2 : vlt c g.bounds.2) :
    idx_to_coord g (coord_to_idx g c).toNat = c - g.bounds.1
    ∧ ∀ i : ℕ, (i : ℤ) < g.num_boxes →
        coord_to_idx g (idx_to_coord g i + g.bounds.1) = (i : ℤ) := by
  have h1 : g.bounds.1.x ≤ c.x ∧ g.bounds.1.y ≤ c.y ∧ g.bounds.1.z ≤ c.z := hc1
  have h2 : c.x < g.bounds.2.x ∧ c.y < g.bounds.2.y ∧ c.z < g.bounds.2.z := hc2
  obtain ⟨hx1, hy1, hz1⟩ := h1
  obtain ⟨hx2, hy2, hz2⟩ := h2
  have hDx : g.dimensions.x = g.bounds.2.x - g.bounds.1.x := by rw [hdim]; rfl
  have hDy : g.dimensions.y = g.bounds.2.y - g.bounds.1.y := by rw [hdim]; rfl
  have hDz : g.dimensions.z = g.bounds.2.z - g.bounds.1.z := by rw [hdim]; rfl
  have hDx0 : 0 ≤ g.dimensions.x := by omega
  have hDy0 : 0 ≤ g.dimensions.y := by omega
  constructor
  · -- encode the coordinate, then decode it again
    have henc : (coord_to_idx g c).toNat
        = (c.x - g.bounds.1.x).toNat
          + g.dimensions.x.toNat * ((c.y - g.bounds.1.y).toNat
            + g.dimensions.y.toNat * (c.z - g.bounds.1.z).toNat) := by
      have hval : coord_to_idx g c
          = (((c.x - g.bounds.1.x).toNat
              + g.dimensions.x.toNat * ((c.y - g.bounds.1.y).toNat
                + g.dimensions.y.toNat * (c.z - g.bounds.1.z).toNat) : ℕ) : ℤ) := by
        unfold coord_to_idx
        push_cast [Int.toNat_of_nonneg (by omega : (0:ℤ) ≤ c.x - g.bounds.1.x),
          Int.toNat_of_nonneg (by omega : (0:ℤ) ≤ c.y - g.bounds.1.y),
          Int.toNat_of_nonneg (by omega : (0:ℤ) ≤ c.z - g.bounds.1.z),
          Int.toNat_of_nonneg hDx0, Int.toNat_of_nonneg hDy0]
        ring
      rw [hval, Int.toNat_natCast]
    have ha : (c.x - g.bounds.1.x).toNat < g.dimensions.x.toNat := by omega
    have hb : (c.y - g.bounds.1.y).toNat < g.dimensions.y.toNat := by omega
    refine v3_eq ?_ ?_ ?_
    · rw [idx_to_coord_x, int_toNat_mul hDx0 hDy0, henc,
        encode3_low _ _ _ _ _ ha hb, vsub_x]
      omega
    · rw [idx_to_coord_y, int_toNat_mul hDx0 hDy0, henc,
        encode3_mid _ _ _ _ _ ha hb, vsub_y]
      omega
    · rw [idx_to_coord_z, int_toNat_mul hDx0 hDy0, henc,
        encode3_div _ _ _ _ _ ha hb, vsub_z]
      omega
  · intro i _
    have hexp : coord_to_idx g (idx_to_coord g i + g.bounds.1)
        = (idx_to_coord g i).x
          + g.dimensions.x * ((idx_to_coord g i).y + g.dimensions.y * (idx_to_coord g i).z) := by
      unfold coord_to_idx
      simp only [vadd_x, vadd_y, vadd_z]
      ring
    rw [hexp, idx_to_coord_x, idx_to_coord_y, idx_to_coord_z, int_toNat_mul hDx0 hDy0]
    have hcx : (g.dimensions.x : ℤ) = (g.dimensions.x.toNat : ℤ) :=
      (Int.toNat_of_nonneg hDx0).symm
    have hcy : (g.dimensions.y : ℤ) = (g.dimensions.y.toNat : ℤ) :=
      (Int.toNat_of_nonneg hDy0).symm
    rw [hcx, hcy]
    have hnat : (i - (i / (g.dimensions.x.toNat * g.dimensions.y.toNat))
          * (g.dimensions.x.toNat * g.dimensions.y.toNat)) % g.dimensions.x.toNat
        + g.dimensions.x.toNat
          * ((i - (i / (g.dimensions.x.toNat * g.dimensions.y.toNat))
              * (g.dimensions.x.toNat * g.dimensions.y.toNat)) / g.dimensions.x.toNat
            + g.dimensions.y.toNat * (i / (g.dimensions.x.toNat * g.dimensions.y.toNat)))
        = i :=
      decode3_encode_assoc g.dimensions.x.toNat g.dimensions.y.toNat i
    exact_mod_cast hnat

/-- Witness for C2 at the empty-collection grid with padding 2 and the
coordinate `(0,0,0)`. -/
theorem coord_idx_roundtrip_relative_witness :
    idx_to_coord emptyPadGrid (coord_to_idx emptyPadGrid ⟨0, 0, 0⟩).toNat
      = ⟨0, 0, 0⟩ - emptyPadGrid.bounds.1
    ∧ ∀ i : ℕ, (i : ℤ) < emptyPadGrid.num_boxes →
        coord_to_idx emptyPadGrid (idx_to_coord emptyPadGrid i + emptyPadGrid.bounds.1)
          = (i : ℤ) :=
  coord_idx_roundtrip_relative emptyPadGrid (by rw [emptyPadGrid_val]; decide) ⟨0, 0, 0⟩
    (by rw [emptyPadGrid_val]; decide) (by rw [emptyPadGrid_val]; decide)

/-! ## Claim C9 -/

theorem idx_to_coord_h_x (dims : V3 ℤ) (n : ℕ) :
    (idx_to_coord_h dims n).x = ((n / (dims.y * dims.z).toNat : ℕ) : ℤ) := rfl

theorem idx_to_coord_h_y (dims : V3 ℤ) (n : ℕ) :
    (idx_to_coord_h dims n).y
      = (((n - (n / (dims.y * dims.z).toNat) * (dims.y * dims.z).toNat)
          / dims.z.toNat : ℕ) : ℤ) := rfl

theorem idx_to_coord_h_z (dims : V3 ℤ) (n : ℕ) :
    (idx_to_coord_h dims n).z
      = (((n - (n / (dims.y * dims.z).toNat) * (dims.y * dims.z).toNat)
          % dims.z.toNat : ℕ) : ℤ) := rfl

/-- C9: for nonzero spacing and nonnegative dimensions, the inline `grid.h`
chain `associated_grid_index ∘ spatial_coord_of_box` is the identity on
every box index (in exact arithmetic): the box anchor coordinate maps back
to the same scalar index. -/
theorem spatial_roundtrip (spacing : V3 ℚ) (bmin dims : V3 ℤ) (i : ℕ)
    (hsx : spacing.x ≠ 0) (hsy : spacing.y ≠ 0) (hsz : spacing.z ≠ 0)
    (hdy : 0 ≤ dims.y) (hdz : 0 ≤ dims.z) :
    associated_grid_index spacing bmin dims (spatial_coord_of_box_h spacing bmin dims i)
      = (i : ℤ) := by
  unfold associated_grid_index spatial_coord_of_box_h
  have hgc : grid_coordinate_h spacing (castQ (idx_to_coord_h dims i + bmin) * spacing)
      = idx_to_coord_h dims i + bmin := by
    unfold grid_coordinate_h
    refine v3_eq ?_ ?_ ?_
    · simp only [vmul_x, castQ_comp_x, vadd_x]
      rw [mul_div_cancel_right₀ _ hsx, ratTrunc_intCast]
    · simp only [vmul_y, castQ_comp_y, vadd_y]
      rw [mul_div_cancel_right₀ _ hsy, ratTrunc_intCast]
    · simp only [vmul_z, castQ_comp_z, vadd_z]
      rw [mul_div_cancel_right₀ _ hsz, ratTrunc_intCast]
  rw [hgc]
  have hcancel : idx_to_coord_h dims i + bmin - bmin = idx_to_coord_h dims i :=
    v3_eq (by simp only [vsub_x, vadd_x]; ring) (by simp only [vsub_y, vadd_y]; ring)
      (by simp only [vsub_z, vadd_z]; ring)
  rw [hcancel]
  unfold coord_to_idx_h
  rw [idx_to_coord_h_x, idx_to_coord_h_y, idx_to_coord_h_z, int_toNat_mul hdy hdz]
  have hcy : (dims.y : ℤ) = (dims.y.toNat : ℤ) := (Int.toNat_of_nonneg hdy).symm
  have hcz : (dims.z : ℤ) = (dims.z.toNat : ℤ) := (Int.toNat_of_nonneg hdz).symm
  rw [hcy, hcz]
  have hnat : (i - (i / (dims.y.toNat * dims.z.toNat)) * (dims.y.toNat * dims.z.toNat))
        % dims.z.toNat
      + dims.z.toNat
        * ((i - (i / (dims.y.toNat * dims.z.toNat)) * (dims.y.toNat * dims.z.toNat))
            / dims.z.toNat
          + dims.y.toNat * (i / (dims.y.toNat * dims.z.toNat)))
      = i := by
    rw [Nat.mul_comm dims.y.toNat dims.z.toNat]
    exact decode3_encode_assoc dims.z.toNat dims.y.toNat i
  exact_mod_cast hnat

/-- Witness for C9 at spacing `(1,1,1)`, `bounds.min = (-1,-1,-1)`,
dimensions `(2,2,2)` and box index `3`. -/
theorem spatial_roundtrip_witness :
    associated_grid_index ⟨1, 1, 1⟩ ⟨-1, -1, -1⟩ ⟨2, 2, 2⟩
        (spatial_coord_of_box_h ⟨1, 1, 1⟩ ⟨-1, -1, -1⟩ ⟨2, 2, 2⟩ 3)
      = (3 : ℤ) :=
  spatial_roundtrip ⟨1, 1, 1⟩ ⟨-1, -1, -1⟩ ⟨2, 2, 2⟩ 3 (by norm_num) (by norm_num)
    (by norm_num) (by decide) (by decide)

/-! ## Claim C7 -/

/-- C7 counterexample: on the one-box grid (`bounds = [0,1)³`,
`num_boxes = 1`), `expansion_box_indices((0,0,0), 1)` returns index `3`,
which lies outside `[0, num_boxes)`, and no failure of any kind occurs: the
source function has no bounds check at all (no `StencilOutOfBounds`). -/
theorem expansion_indices_out_of_range_cex :
    (3 : ℤ) ∈ expansion_box_indices tinyGrid ⟨0, 0, 0⟩ 1
    ∧ ¬((3 : ℤ) < tinyGrid.num_boxes) := by
  have h0 : grid_coordinate ⟨1, 1, 1⟩ ⟨0, 0, 0⟩ = ⟨0, 0, 0⟩ := by
    norm_num [grid_coordinate]
  rw [tinyGrid_val]
  constructor
  · show (3 : ℤ) ∈ expansion_box_indices ⟨⟨1, 1, 1⟩, 0, (⟨0, 0, 0⟩, ⟨1, 1, 1⟩), ⟨1, 1, 1⟩, 1⟩
      ⟨0, 0, 0⟩ 1
    simp only [expansion_box_indices]
    rw [h0]
    decide
  · decide

/-- C7 amended: `expansion_box_indices(pos, order)` always returns exactly
`(order+1)^3` indices, ordered lexicographically by the axis-offset triple
(`nz` fastest): the entry at flat position `(i*(order+1)+j)*(order+1)+k` is
`coord_to_idx(grid_coordinate(pos) + (grid_sequence i, grid_sequence j,
grid_sequence k))`.  It performs no bounds check: indices outside
`[0, num_gridpoints)` are returned as-is, and no failure is signalled. -/
theorem expansion_box_indices_shape (g : GridData) (pos : V3 ℚ) (order i j k : ℕ)
    (hi : i ≤ order) (hj : j ≤ order) (hk : k ≤ order) :
    (expansion_box_indices g pos order).length = (order + 1) ^ 3
    ∧ (expansion_box_indices g pos order)[(i * (order + 1) + j) * (order + 1) + k]?
      = some (coord_to_idx g (grid_coordinate g.spacing pos
          + ⟨grid_sequence i, grid_sequence j, grid_sequence k⟩)) := by
  have hinner : ∀ nx : ℕ,
      ((List.range (order + 1)).flatMap fun ny =>
        (List.range (order + 1)).map fun nz =>
          coord_to_idx g (grid_coordinate g.spacing pos
            + ⟨grid_sequence nx, grid_sequence ny, grid_sequence nz⟩)).length
      = (order + 1) * (order + 1) := by
    intro nx
    rw [flatMap_length_const _ _ (order + 1)
      (fun a _ => by rw [List.length_map, List.length_range]), List.length_range]
  constructor
  · show ((List.range (order + 1)).flatMap fun nx =>
      (List.range (order + 1)).flatMap fun ny =>
        (List.range (order + 1)).map fun nz =>
          coord_to_idx g (grid_coordinate g.spacing pos
            + ⟨grid_sequence nx, grid_sequence ny, grid_sequence nz⟩)).length = (order + 1) ^ 3
    rw [flatMap_length_const _ _ ((order + 1) * (order + 1)) (fun nx _ => hinner nx),
      List.length_range]
    ring
  · have hb : j * (order + 1) + k < (order + 1) * (order + 1) := by
      calc j * (order + 1) + k < j * (order + 1) + (order + 1) := by omega
      _ = (j + 1) * (order + 1) := by ring
      _ ≤ (order + 1) * (order + 1) := Nat.mul_le_mul_right (order + 1) (by omega)
    have hflat : (i * (order + 1) + j) * (order + 1) + k
        = i * ((order + 1) * (order + 1)) + (j * (order + 1) + k) := by ring
    show ((List.range (order + 1)).flatMap fun nx =>
      (List.range (order + 1)).flatMap fun ny =>
        (List.range (order + 1)).map fun nz =>
          coord_to_idx g (grid_coordinate g.spacing pos
            + ⟨grid_sequence nx, grid_sequence ny, grid_sequence nz⟩))[
        (i * (order + 1) + j) * (order + 1) + k]? = _
    rw [hflat,
      flatMap_range_getElem _ ((order + 1) * (order + 1)) (order + 1) i
        (j * (order + 1) + k) hinner (by omega) hb,
      flatMap_range_getElem _ (order + 1) (order + 1) j k
        (fun x => by rw [List.length_map, List.length_range]) (by omega) (by omega),
      List.getElem?_map, List.getElem?_range (by omega : k < order + 1)]
    rfl

/-- Witness for C7 on the one-box grid at order 1, `i = j = k = 1`. -/
theorem expansion_box_indices_shape_witness :
    (expansion_box_indices tinyGrid ⟨0, 0, 0⟩ 1).length = (1 + 1) ^ 3
    ∧ (expansion_box_indices tinyGrid ⟨0, 0, 0⟩ 1)[(1 * (1 + 1) + 1) * (1 + 1) + 1]?
      = some (coord_to_idx tinyGrid (grid_coordinate tinyGrid.spacing ⟨0, 0, 0⟩
          + ⟨grid_sequence 1, grid_sequence 1, grid_sequence 1⟩)) :=
  expansion_box_indices_shape tinyGrid ⟨0, 0, 0⟩ 1 1 1 1 (by decide) (by decide) (by decide)

/-! ## Claim C6 -/

theorem gwrite_ne (σ : GState) (cell d : ℕ × ℕ × ℕ × ℕ) (v : ℝ) (h : d ≠ cell) :
    gwrite σ cell v d = σ d := if_neg h

/-- C6 counterexample: for the propagation-test grid,
`max_transit_steps = ⌈√75⌉ = 9`, but the table's time axis
(`extent_range(1, 9)`) stores only the shifts `{1,…,8}` — not the claimed
inclusive `1..9` — and the fill loop bound `time_idx < shape()[0] = 8`
visits only `{1,…,7}`, missing even the last stored shift. -/
theorem stored_time_shifts_cex :
    max_transit_steps testGrid 1 1 = 9
    ∧ stored_time_shifts (max_transit_steps testGrid 1 1)
      ≠ Finset.Icc 1 (max_transit_steps testGrid 1 1)
    ∧ gmat_time_shape testGrid 1 1 = 8
    ∧ List.range' 1 (gmat_time_shape testGrid 1 1 - 1) = [1, 2, 3, 4, 5, 6, 7] := by
  have hshape : gmat_time_shape testGrid 1 1 = 8 := by
    unfold gmat_time_shape
    rw [testGrid_mts]
    decide
  refine ⟨testGrid_mts, ?_, hshape, by rw [hshape]; rfl⟩
  rw [testGrid_mts]
  intro h
  have h9 : (9 : ℤ) ∈ Finset.Icc (1 : ℤ) 9 := by simp
  rw [← h] at h9
  unfold stored_time_shifts at h9
  simp [Finset.mem_Ico] at h9

/-- C6 amended: the tables store time shifts in the half-open range
`[1, max_transit_steps)` (boost `extent_range`), and the
`fill_gmatrix_table` loop visits only `[1, max_transit_steps - 1)`: the fill
never touches any plane with `t = 0` or `t ≥ gmat_time_shape`
(`= max_transit_steps - 1`) — in particular the last stored shift is left at
its initial value. -/
theorem fill_gmatrix_time_coverage (g : GridData) (c dt : ℚ) (order : ℕ) (σ₀ : GState)
    (t x y k : ℕ) (ht : t = 0 ∨ gmat_time_shape g c dt ≤ t) :
    fill_gmatrix_table g c dt order σ₀ (t, x, y, k) = σ₀ (t, x, y, k) := by
  refine foldl_preserve
    (fun σ : GState => ∀ a b e : ℕ, σ (t, a, b, e) = σ₀ (t, a, b, e))
    (gmat_box_step g c dt order (gmat_time_shape g c dt)) (gmat_triples g)
    ?_ σ₀ (fun _ _ _ => rfl) x y k
  intro σ tr _ hP
  simp only [gmat_box_step]
  split
  · exact hP
  · refine foldl_preserve
      (fun σ' : GState => ∀ a b e : ℕ, σ' (t, a, b, e) = σ₀ (t, a, b, e)) _ _ ?_ σ hP
    intro σ' tt htt hP'
    have htt' : 1 ≤ tt ∧ tt < gmat_time_shape g c dt := by
      rw [List.mem_range'] at htt
      obtain ⟨ii, hii, rfl⟩ := htt
      omega
    have htne : tt ≠ t := by rcases ht with h | h <;> omega
    intro a b e
    simp only [gmat_time_step]
    split
    · split
      · rw [gwrite_ne _ _ _ _ (fun hh => htne ((congrArg Prod.fst hh).symm)),
          gwrite_ne _ _ _ _ (fun hh => htne ((congrArg Prod.fst hh).symm))]
        exact hP' a b e
      · rw [gwrite_ne _ _ _ _ (fun hh => htne ((congrArg Prod.fst hh).symm))]
        exact hP' a b e
    · exact hP' a b e

/-- Witness for C6 at the propagation-test grid, `t = 0`. -/
theorem fill_gmatrix_time_coverage_witness :
    fill_gmatrix_table testGrid 1 1 3 (fun _ => 0) (0, 0, 0, 0)
      = (fun _ : ℕ × ℕ × ℕ × ℕ => (0 : ℝ)) (0, 0, 0, 0) :=
  fill_gmatrix_time_coverage testGrid 1 1 3 (fun _ => 0) 0 0 0 0 (Or.inl rfl)

/-! ## Claim C8 -/

/-- The mirror-symmetry invariant of the `g_mat` buffer along the doubled
third spatial axis. -/
def mirror_inv (d2 : ℕ) (σ : GState) : Prop :=
  ∀ t x y k, 0 < k → k < 2 * d2 → σ (t, x, y, k) = σ (t, x, y, 2 * d2 - k)

theorem gwrite_zero_mirror (σ : GState) (d2 tt nx ny : ℕ) (w : ℝ)
    (hP : mirror_inv d2 σ) : mirror_inv d2 (gwrite σ (tt, nx, ny, 0) w) := by
  intro t' x' y' k' h0 h2
  have hL : (t', x', y', k') ≠ (tt, nx, ny, 0) := by
    intro h
    simp only [Prod.mk.injEq] at h
    omega
  have hR : (t', x', y', 2 * d2 - k') ≠ (tt, nx, ny, 0) := by
    intro h
    simp only [Prod.mk.injEq] at h
    omega
  rw [gwrite_ne _ _ _ _ hL, gwrite_ne _ _ _ _ hR]
  exact hP t' x' y' k' h0 h2

theorem gwrite_pair_mirror (σ : GState) (d2 tt nx ny nz : ℕ) (w : ℝ)
    (hnz0 : nz ≠ 0) (hnzd : nz < d2) (hP : mirror_inv d2 σ) :
    mirror_inv d2 (gwrite (gwrite σ (tt, nx, ny, nz) w) (tt, nx, ny, 2 * d2 - nz) w) := by
  have hABne : ((tt, nx, ny, nz) : ℕ × ℕ × ℕ × ℕ) ≠ (tt, nx, ny, 2 * d2 - nz) := by
    intro h
    simp only [Prod.mk.injEq] at h
    omega
  intro t' x' y' k' h0 h2
  by_cases hB : (t', x', y', k') = (tt, nx, ny, 2 * d2 - nz)
  · have hMA : ((t', x', y', 2 * d2 - k') : ℕ × ℕ × ℕ × ℕ) = (tt, nx, ny, nz) := by
      simp only [Prod.mk.injEq] at hB ⊢
      obtain ⟨h1', h2', h3', h4'⟩ := hB
      exact ⟨h1', h2', h3', by omega⟩
    have hvL : gwrite (gwrite σ (tt, nx, ny, nz) w) (tt, nx, ny, 2 * d2 - nz) w
        (t', x', y', k') = w := by
      rw [hB]
      exact if_pos rfl
    have hvM : gwrite (gwrite σ (tt, nx, ny, nz) w) (tt, nx, ny, 2 * d2 - nz) w
        (t', x', y', 2 * d2 - k') = w := by
      rw [hMA, gwrite_ne _ _ _ _ hABne]
      exact if_pos rfl
    rw [hvL, hvM]
  · by_cases hA : (t', x', y', k') = (tt, nx, ny, nz)
    · have hMB : ((t', x', y', 2 * d2 - k') : ℕ × ℕ × ℕ × ℕ)
          = (tt, nx, ny, 2 * d2 - nz) := by
        simp only [Prod.mk.injEq] at hA ⊢
        obtain ⟨h1', h2', h3', h4'⟩ := hA
        exact ⟨h1', h2', h3', by omega⟩
      have hvL : gwrite (gwrite σ (tt, nx, ny, nz) w) (tt, nx, ny, 2 * d2 - nz) w
          (t', x', y', k') = w := by
        rw [hA, gwrite_ne _ _ _ _ hABne]
        exact if_pos rfl
      have hvM : gwrite (gwrite σ (tt, nx, ny, nz) w) (tt, nx, ny, 2 * d2 - nz) w
          (t', x', y', 2 * d2 - k') = w := by
        rw [hMB]
        exact if_pos rfl
      rw [hvL, hvM]
    · have hRA : (t', x', y', 2 * d2 - k') ≠ (tt, nx, ny, nz) := by
        intro h
        simp only [Prod.mk.injEq] at h
        obtain ⟨h1', h2', h3', h4'⟩ := h
        apply hB
        simp only [Prod.mk.injEq]
        exact ⟨h1', h2', h3', by omega⟩
      have hRB : (t', x', y', 2 * d2 - k') ≠ (tt, nx, ny, 2 * d2 - nz) := by
        intro h
        simp only [Prod.mk.injEq] at h
        obtain ⟨h1', h2', h3', h4'⟩ := h
        apply hA
        simp only [Prod.mk.injEq]
        exact ⟨h1', h2', h3', by omega⟩
      rw [gwrite_ne _ _ _ _ hB, gwrite_ne _ _ _ _ hA, gwrite_ne _ _ _ _ hRB,
        gwrite_ne _ _ _ _ hRA]
      exact hP t' x' y' k' h0 h2

theorem gmat_triples_mem (g : GridData) (tr : ℕ × ℕ × ℕ) (h : tr ∈ gmat_triples g) :
    tr.1 < g.dimensions.x.toNat ∧ tr.2.1 < g.dimensions.y.toNat
      ∧ tr.2.2 < g.dimensions.z.toNat := by
  simp only [gmat_triples, List.mem_flatMap, List.mem_map, List.mem_range] at h
  obtain ⟨nx, hnx, ny, hny, nz, hnz, rfl⟩ := h
  exact ⟨hnx, hny, hnz⟩

/-- C8 counterexample: only the third spatial axis of `g_mat` is doubled —
for the propagation-test grid its spatial extents are `(5, 5, 10)`, not
`(10, 10, 10)`, so there is no `[dimension, 2*dimension)` half along the x
or y axis into which anything could be mirrored. -/
theorem gmat_axes_not_all_mirrored_cex :
    gmat_spatial_extents testGrid = (5, 5, 10)
    ∧ gmat_spatial_extents testGrid
      ≠ (2 * testGrid.dimensions.x, 2 * testGrid.dimensions.y, 2 * testGrid.dimensions.z) := by
  constructor
  · rw [testGrid_val]; decide
  · rw [testGrid_val]; decide

/-- C8 amended: after `fill_gmatrix_table` runs on the zero-initialised
buffer, the table is mirror symmetric along the doubled third axis: for
every stored time shift `t`, spatial offsets `x, y`, and every
`0 < k < 2*dimensions(2)`, the entry at `k` equals the entry at
`2*dimensions(2) - k` (the x and y axes are not doubled and not mirrored). -/
theorem gmatrix_mirror_symmetry (g : GridData) (c dt : ℚ) (order : ℕ) (t x y k : ℕ)
    (hk0 : 0 < k) (hk2 : k < 2 * g.dimensions.z.toNat) :
    gmatrix_table g c dt order (t, x, y, k)
      = gmatrix_table g c dt order (t, x, y, 2 * g.dimensions.z.toNat - k) := by
  have main : mirror_inv g.dimensions.z.toNat
      (fill_gmatrix_table g c dt order (fun _ => 0)) := by
    refine foldl_preserve (mirror_inv g.dimensions.z.toNat) _ (gmat_triples g) ?_ _ ?_
    · intro σ tr htr hP
      obtain ⟨hx, hy, hz⟩ := gmat_triples_mem g tr htr
      simp only [gmat_box_step]
      split
      · exact hP
      · refine foldl_preserve (mirror_inv g.dimensions.z.toNat) _ _ ?_ σ hP
        intro σ' tt _ hP'
        simp only [gmat_time_step]
        split_ifs with hcond hnz
        · exact gwrite_pair_mirror σ' g.dimensions.z.toNat tt tr.1 tr.2.1 tr.2.2 _ hnz hz hP'
        · have h22 : tr.2.2 = 0 := by omega
          rw [h22]
          exact gwrite_zero_mirror σ' g.dimensions.z.toNat tt tr.1 tr.2.1 _ hP'
        · exact hP'
    · intro t' x' y' k' _ _
      rfl
  exact main t x y k hk0 hk2

/-- Witness for C8 at the empty-collection grid with padding 2
(`dimensions.z = 5`), `t = 1`, `k = 1`. -/
theorem gmatrix_mirror_symmetry_witness :
    gmatrix_table emptyPadGrid 1 1 3 (1, 0, 0, 1)
      = gmatrix_table emptyPadGrid 1 1 3 (1, 0, 0, 2 * emptyPadGrid.dimensions.z.toNat - 1) :=
  gmatrix_mirror_symmetry emptyPadGrid 1 1 3 1 0 0 1 (by decide)
    (by rw [emptyPadGrid_val]; decide)

end EMRG
